import Mathlib

/-!
Verification development for the vscode-checkstyle protocol-orchestration and
download-coordination subsystem.  The server side
(`src/server/src/downloadCheckstyle.ts`) and the client side (the extension
module with `Configuration.computeConfiguration`, `initCommand`,
`registerClientListener` and `getErrorMessage`) are shallowly embedded as pure
Lean functions over explicit environments: the network's answer to the probe,
the stream's progress/terminal events, and the file system are inputs, and the
emitted notifications together with file-system effects are collected in an
event trace.
-/

/-- The part of `request.RequestResponse` inspected by `requestForVersion`. -/
structure RequestResponse where
  statusCode : Nat
deriving DecidableEq, Repr

/-- The `ResponseType` enum of `downloadCheckstyle.ts`. -/
inductive ResponseType where
  | Found
  | Others
  | Error
deriving DecidableEq, Repr

/-- The classification performed by the callback of `requestForVersion`:
`if (!response || _error) resolve(Error) else if (response.statusCode === 302)
resolve(Found) else resolve(Others)`.  The network outcome (the callback's
`_error` and `response` arguments) is the input. -/
def requestForVersion (_error : Option String) (response : Option RequestResponse) :
    ResponseType :=
  if response.isNone || _error.isSome then ResponseType.Error
  else
    match response with
    | some r => if r.statusCode = 302 then ResponseType.Found else ResponseType.Others
    | none => ResponseType.Error

/-- `MessageType` of `vscode-languageserver` (only `Error` is used). -/
inductive MessageType where
  | Error
  | Warning
  | Info
  | Log
deriving DecidableEq, Repr

/-- The worker-to-controller messages sent by `downloadCheckstyle`, with the
payload fields each send site fills in. -/
inductive ServerNotification where
  | showMessage (type : MessageType) (message : String)
  | versionInvalid (uri : String)
  | downloadStart
  | statusDownloading (percent : ℤ)
  | statusError (message : String) (downloadLink : String)
  | statusFinished
deriving DecidableEq, Repr

/-- How the download stream terminates: an `error` event (carrying the raw
error's optional `code` field and its `toString()` form) or the `end` event. -/
inductive StreamTerminal where
  | streamError (code : Option String) (toStr : String)
  | ended
deriving DecidableEq, Repr

/-- The environment one call of `downloadCheckstyle` runs against: the probe
callback's arguments, the initially existing files, the `state.percent`
fractions delivered by `progress` events, and how the stream terminates. -/
structure DownloadEnv where
  probeError : Option String
  probeResponse : Option RequestResponse
  fileSet : List String
  progressPercents : List ℚ
  terminal : StreamTerminal

/-- A file system, as the set of paths that currently hold a file. -/
structure FS where
  files : List String
deriving DecidableEq, Repr

/-- `fs-extra`'s `pathExists`. -/
def FS.pathExists (fs : FS) (p : String) : Bool :=
  fs.files.contains p

/-- `fs-extra`'s `remove`. -/
def FS.removeFile (fs : FS) (p : String) : FS :=
  ⟨fs.files.filter (fun q => q ≠ p)⟩

/-- `createWriteStream` opening its target creates the file. -/
def FS.createFile (fs : FS) (p : String) : FS :=
  ⟨p :: fs.files.filter (fun q => q ≠ p)⟩

/-- `fs-extra`'s `rename`. -/
def FS.renameFile (fs : FS) (src dst : String) : FS :=
  ⟨dst :: (fs.files.filter (fun q => q ≠ src ∧ q ≠ dst))⟩

/-- One observable step of `downloadCheckstyle`: a file-system effect or a
notification sent over the connection, in program order. -/
inductive Ev where
  | fsRemove (p : String)
  | fsCreate (p : String)
  | fsRename (src dst : String)
  | notif (n : ServerNotification)
deriving DecidableEq, Repr

/-- Replay one event on a file system (notifications leave it unchanged). -/
def applyEv (fs : FS) : Ev → FS
  | Ev.fsRemove p => fs.removeFile p
  | Ev.fsCreate p => fs.createFile p
  | Ev.fsRename src dst => fs.renameFile src dst
  | Ev.notif _ => fs

/-- Replay a trace on a file system. -/
def runTrace (fs : FS) (t : List Ev) : FS :=
  t.foldl applyEv fs

/-- The notifications of a trace, in order. -/
def notifsOf (t : List Ev) : List ServerNotification :=
  t.filterMap fun e =>
    match e with
    | Ev.notif n => some n
    | _ => none

/-- `path.join` for the two-argument uses in the source. -/
def pathJoin (a b : String) : String := a ++ "/" ++ b

/-- `checkstyle-${version}-all.jar`. -/
def checkstyleJarOf (version : String) : String :=
  "checkstyle-" ++ version ++ "-all.jar"

/-- The download URL built from the version. -/
def downloadLinkOf (version : String) : String :=
  "https://sourceforge.net/projects/checkstyle/files/checkstyle/" ++ version ++
    "/" ++ checkstyleJarOf version ++ "/download"

/-- `path.join(downloadPath, tempFileName)` with `tempFileName =
`${checkstyleJar}.download``. -/
def tempFilePathOf (downloadPath version : String) : String :=
  pathJoin downloadPath (checkstyleJarOf version ++ ".download")

/-- `path.join(downloadPath, checkstyleJar)`, the final artifact path. -/
def finalFilePathOf (downloadPath version : String) : String :=
  pathJoin downloadPath (checkstyleJarOf version)

/-- JavaScript's `Math.round`: the nearest integer, ties toward plus
infinity. -/
def jsMathRound (q : ℚ) : ℤ := ⌊q + 1 / 2⌋

/-- JavaScript's `a || b` on `err['code'] || err.toString()`: the `code`
field when it is present and truthy (a non-empty string), else the
fallback. -/
def jsOrString : Option String → String → String
  | some c, fallback => if c = "" then fallback else c
  | none, fallback => fallback

/-- The settled value and the event trace of one `downloadCheckstyle` call. -/
structure DownloadOutcome where
  result : Bool
  trace : List Ev
deriving DecidableEq, Repr

/-- Shallow embedding of `downloadCheckstyle(connection, downloadPath,
version, textDocumentUri)`.  The switch on the probe's `ResponseType` either
returns `false` after a single notification, or proceeds: stale-temp-file
cleanup, then inside the promise executor `DownloadStart`, the write stream's
creation of the temp file, one `downloading` status per progress event with
`Math.round(state.percent * 100)`, and finally either the `error` status
(resolving `false`) or the rename followed by the `finished` status
(resolving `true`).  The promise's `_reject` is never invoked. -/
def downloadCheckstyle (env : DownloadEnv)
    (downloadPath version textDocumentUri : String) : DownloadOutcome :=
  match requestForVersion env.probeError env.probeResponse with
  | ResponseType.Error =>
      { result := false
        trace := [Ev.notif (ServerNotification.showMessage MessageType.Error
          "Failed to download CheckStyle, please try again later.")] }
  | ResponseType.Others =>
      { result := false
        trace := [Ev.notif (ServerNotification.versionInvalid textDocumentUri)] }
  | ResponseType.Found =>
      let tempFilePath := tempFilePathOf downloadPath version
      let cleanup : List Ev :=
        if FS.pathExists ⟨env.fileSet⟩ tempFilePath then [Ev.fsRemove tempFilePath]
        else []
      let startEvents : List Ev :=
        [Ev.notif ServerNotification.downloadStart, Ev.fsCreate tempFilePath]
      let progressEvents : List Ev :=
        env.progressPercents.map fun q =>
          Ev.notif (ServerNotification.statusDownloading (jsMathRound (q * 100)))
      match env.terminal with
      | StreamTerminal.streamError code toStr =>
          { result := false
            trace := cleanup ++ startEvents ++ progressEvents ++
              [Ev.notif (ServerNotification.statusError
                ("Download Checkstyle fail: " ++ jsOrString code toStr)
                (downloadLinkOf version))] }
      | StreamTerminal.ended =>
          { result := true
            trace := cleanup ++ startEvents ++ progressEvents ++
              [Ev.fsRename tempFilePath (finalFilePathOf downloadPath version),
               Ev.notif ServerNotification.statusFinished] }

/-!  Client side: the extension module. -/

/-- One `ConfigurationItem` of a batched configuration query (`section` is a
Lean keyword, so the field is `sectionName`). -/
structure ConfigurationItem where
  sectionName : Option String
  scopeUri : Option String
deriving DecidableEq, Repr

/-- `Proposed.ConfigurationParams`: `items` is `none` when the request carries
no `items` field (JavaScript truthiness of `params.items`). -/
structure ConfigurationParams where
  items : Option (List ConfigurationItem)
deriving DecidableEq, Repr

/-- JavaScript truthiness of an optional string (`if (item.section)`,
`if (item.scopeUri)`): present and non-empty. -/
def jsTruthyStr : Option String → Bool
  | some s => s ≠ ""
  | none => false

/-- What `workspace.getConfiguration('checkstyle', scope)` can hold for the
four keys `computeConfiguration` reads; `none` means the key is unset. -/
structure ConfigStore where
  autocheck : Option Bool
  version : Option String
  configurationFile : Option String
  propertiesPath : Option String
deriving DecidableEq, Repr

/-- The `ICheckStyleSettings` record pushed for a sectionless item. -/
structure ICheckStyleSettings where
  autocheck : Bool
  version : String
  configurationFile : String
  propertiesPath : Option String
deriving DecidableEq, Repr

/-- The configuration scope the source selects: `workspace.getConfiguration
('checkstyle', asUri(item.scopeUri))` when `item.scopeUri` is truthy, the
global `workspace.getConfiguration('checkstyle')` otherwise.  The workspace
is the function `ws` from an optional scope URI to the store. -/
def scopeConfig (ws : Option String → ConfigStore) (scopeUri : Option String) :
    ConfigStore :=
  if jsTruthyStr scopeUri then ws scopeUri else ws none

/-- The record built by `computeConfiguration` for a sectionless item:
`config.get` with the defaults `false`, `"8.0"`, `"google_checks"`, and no
default for `propertiesPath`. -/
def resolveSettings (cfg : ConfigStore) : ICheckStyleSettings where
  autocheck := cfg.autocheck.getD false
  version := cfg.version.getD "8.0"
  configurationFile := cfg.configurationFile.getD "google_checks"
  propertiesPath := cfg.propertiesPath

/-- The entry pushed for one query item: `null` for an item with a truthy
`section`, otherwise the resolved settings of the selected scope. -/
def resolveItem (ws : Option String → ConfigStore) (item : ConfigurationItem) :
    Option ICheckStyleSettings :=
  if jsTruthyStr item.sectionName then none
  else some (resolveSettings (scopeConfig ws item.scopeUri))

/-- `Configuration.computeConfiguration`: `null` when `params.items` is
falsy, else one entry per item in order. -/
def computeConfiguration (ws : Option String → ConfigStore)
    (params : ConfigurationParams) : Option (List (Option ICheckStyleSettings)) :=
  match params.items with
  | none => none
  | some items => some (items.map (resolveItem ws))

/-- The part of a caught JavaScript error `getErrorMessage` inspects:
`message` is `some m` exactly when `typeof err.message === 'string'`, and
`toStr` is `err.toString()`. -/
structure JsError where
  message : Option String
  toStr : String
deriving DecidableEq, Repr

/-- `getErrorMessage(err)`. -/
def getErrorMessage (err : JsError) : String :=
  let errorMessage :=
    match err.message with
    | some m => m
    | none => err.toStr
  "Checkstyle Error: - '" ++ errorMessage ++ "'"

/-- How one command callback finishes: normally, with the `UserCancelledError`
sentinel, or with any other error. -/
inductive CommandError where
  | userCancelled
  | other (err : JsError)
deriving DecidableEq, Repr

/-- The observable effects of the wrapper `initCommand` installs around a
command callback: lines appended to the output channel and error messages
shown to the user. -/
structure CommandEffects where
  outputLines : List String
  shownErrors : List String
deriving DecidableEq, Repr

/-- The catch logic of `initCommand`'s registered wrapper, applied to the
callback's outcome: `UserCancelledError` does nothing, any other error is
appended to the output channel and shown via `window.showErrorMessage`,
both with `getErrorMessage(error)`. -/
def initCommand (outcome : Except CommandError Unit) : CommandEffects :=
  match outcome with
  | Except.ok _ => { outputLines := [], shownErrors := [] }
  | Except.error CommandError.userCancelled => { outputLines := [], shownErrors := [] }
  | Except.error (CommandError.other err) =>
      { outputLines := [getErrorMessage err], shownErrors := [getErrorMessage err] }

/-- The `downloadStatus` discriminant of an incoming `DownloadStatus`
notification on the client. -/
inductive DownloadStatusKind where
  | downloading (percent : ℤ)
  | finished
  | errorStatus
deriving DecidableEq, Repr

/-- A worker-pushed event the download listeners of `registerClientListener`
react to. -/
inductive ClientEvent where
  | downloadStart
  | downloadStatus (kind : DownloadStatusKind)
deriving DecidableEq, Repr

/-- The listener state of `registerClientListener` for the download
notifications: which task's `DownloadStatus` handler is currently registered
(`client.onNotification` keeps a single handler per method, so a new
registration replaces the old one), and how many tasks have started.  The
`DownloadStart` handler registers a fresh `DownloadStatus` handler scoped to
the new task; the `DownloadStatus` handler only reports progress or settles
the progress promise and never deregisters anything. -/
structure ControllerState where
  statusHandlerTask : Option Nat
  tasksStarted : Nat
deriving DecidableEq, Repr

/-- One step of the client's download-listener state. -/
def registerClientListenerStep (s : ControllerState) : ClientEvent → ControllerState
  | ClientEvent.downloadStart =>
      { statusHandlerTask := some s.tasksStarted, tasksStarted := s.tasksStarted + 1 }
  | ClientEvent.downloadStatus _ => s

/-- The client's download-listener state after a sequence of worker events,
starting with no `DownloadStatus` handler registered. -/
def runController (events : List ClientEvent) : ControllerState :=
  events.foldl registerClientListenerStep { statusHandlerTask := none, tasksStarted := 0 }

/-- The number of `DownloadStart` events in a worker event sequence. -/
def countStarts (events : List ClientEvent) : Nat :=
  events.countP (fun e => e = ClientEvent.downloadStart)

/-!  Derived observations used by the stated properties. -/

/-- The notifications one `downloadCheckstyle` call sends, in order. -/
def downloadNotifs (env : DownloadEnv) (downloadPath version textDocumentUri : String) :
    List ServerNotification :=
  notifsOf (downloadCheckstyle env downloadPath version textDocumentUri).trace

/-- Is this notification `DownloadStart`? -/
def isDownloadStartN : ServerNotification → Bool
  | ServerNotification.downloadStart => true
  | _ => false

/-- Is this notification a `downloading` status? -/
def isDownloadingN : ServerNotification → Bool
  | ServerNotification.statusDownloading _ => true
  | _ => false

/-- Is this notification a `finished` status? -/
def isFinishedN : ServerNotification → Bool
  | ServerNotification.statusFinished => true
  | _ => false

/-- Is this notification an `error` status? -/
def isErrorN : ServerNotification → Bool
  | ServerNotification.statusError _ _ => true
  | _ => false

/-- Is this notification a terminal download status (`finished` or `error`)? -/
def isTerminalN : ServerNotification → Bool
  | ServerNotification.statusFinished => true
  | ServerNotification.statusError _ _ => true
  | _ => false

/-- The `percent` payload of a `downloading` status. -/
def percentOfN : ServerNotification → Option ℤ
  | ServerNotification.statusDownloading p => some p
  | _ => none

/-- The well-formed download notification sequence of one task whose progress
fractions were `ps`: exactly one `DownloadStart` and it comes first, exactly
one terminal status (`finished` xor `error`) and it comes last, everything in
between is a `downloading` status, and the `downloading` percents are the
rounded fractions, non-decreasing and within `[0, 100]`. -/
def DownloadSequenceOk (ns : List ServerNotification) (ps : List ℚ) : Prop :=
  ns.countP (fun n => isDownloadStartN n) = 1 ∧
  ns.head? = some ServerNotification.downloadStart ∧
  ns.countP (fun n => isTerminalN n) = 1 ∧
  ns.countP (fun n => isFinishedN n) + ns.countP (fun n => isErrorN n) = 1 ∧
  (∃ t, ns.getLast? = some t ∧ isTerminalN t = true) ∧
  (∀ n ∈ ns.dropLast.tail, isDownloadingN n = true) ∧
  ns.filterMap percentOfN = ps.map (fun q => jsMathRound (q * 100)) ∧
  (ns.filterMap percentOfN).Chain' (· ≤ ·) ∧
  (∀ p ∈ ns.filterMap percentOfN, 0 ≤ p ∧ p ≤ 100)

/-!  Shared helper lemmas. -/

lemma notifsOf_append (s t : List Ev) : notifsOf (s ++ t) = notifsOf s ++ notifsOf t := by
  simp [notifsOf]

lemma tempFilePathOf_ne_finalFilePathOf (downloadPath version : String) :
    tempFilePathOf downloadPath version ≠ finalFilePathOf downloadPath version := by
  intro h
  have hl := congrArg String.length h
  have h9 : (".download" : String).length = 9 := rfl
  simp only [tempFilePathOf, finalFilePathOf, pathJoin, String.length_append] at hl
  omega

/-- C1: the probe callback classifies every outcome into exactly one of the
three `ResponseType` results: a response received without a transport error
and with status 302 is `Found`, any other response received without a
transport error is `Others` (invalid), and a missing response or a transport
error is `Error` (transport error). -/
theorem requestForVersion_classification (e : Option String)
    (r : Option RequestResponse) :
    (requestForVersion e r = ResponseType.Found ↔
      e = none ∧ ∃ resp, r = some resp ∧ resp.statusCode = 302) ∧
    (requestForVersion e r = ResponseType.Others ↔
      e = none ∧ ∃ resp, r = some resp ∧ resp.statusCode ≠ 302) ∧
    (requestForVersion e r = ResponseType.Error ↔ r = none ∨ e ≠ none) := by
  rcases e with _ | c <;> rcases r with _ | resp
  · simp [requestForVersion]
  · by_cases h : resp.statusCode = 302 <;> simp [requestForVersion, h]
  · simp [requestForVersion]
  · simp [requestForVersion]

/-- C2: when the probe does not come back `Found`, `downloadCheckstyle`
returns `false` and never emits `DownloadStart`; an `Others` (invalid) probe
sends exactly `VersionInvalid` carrying the requesting document's uri, and an
`Error` (transport) probe sends exactly the generic try-again-later error
message. -/
theorem downloadCheckstyle_probe_failure (env : DownloadEnv)
    (downloadPath version textDocumentUri : String)
    (h : requestForVersion env.probeError env.probeResponse ≠ ResponseType.Found) :
    (downloadCheckstyle env downloadPath version textDocumentUri).result = false ∧
    ServerNotification.downloadStart ∉
      downloadNotifs env downloadPath version textDocumentUri ∧
    (requestForVersion env.probeError env.probeResponse = ResponseType.Others →
      downloadNotifs env downloadPath version textDocumentUri =
        [ServerNotification.versionInvalid textDocumentUri]) ∧
    (requestForVersion env.probeError env.probeResponse = ResponseType.Error →
      downloadNotifs env downloadPath version textDocumentUri =
        [ServerNotification.showMessage MessageType.Error
          "Failed to download CheckStyle, please try again later."]) := by
  rcases hr : requestForVersion env.probeError env.probeResponse with _ | _ | _
  · exact absurd hr h
  · simp [downloadNotifs, downloadCheckstyle, hr, notifsOf]
  · simp [downloadNotifs, downloadCheckstyle, hr, notifsOf]

theorem downloadCheckstyle_probe_failure_witness :
    requestForVersion none (some ⟨200⟩) ≠ ResponseType.Found ∧
    (downloadCheckstyle ⟨none, some ⟨200⟩, [], [], StreamTerminal.ended⟩
      "/res" "999.0" "file:///A.java").result = false ∧
    downloadNotifs ⟨none, some ⟨200⟩, [], [], StreamTerminal.ended⟩
      "/res" "999.0" "file:///A.java" =
      [ServerNotification.versionInvalid "file:///A.java"] := by
  refine ⟨by decide, ?_, ?_⟩
  · exact (downloadCheckstyle_probe_failure ⟨none, some ⟨200⟩, [], [],
      StreamTerminal.ended⟩ "/res" "999.0" "file:///A.java" (by decide)).1
  · exact (downloadCheckstyle_probe_failure ⟨none, some ⟨200⟩, [], [],
      StreamTerminal.ended⟩ "/res" "999.0" "file:///A.java" (by decide)).2.2.1 rfl

/-- C9: the command wrapper swallows the user-cancelled sentinel with no
output-channel line and no user-visible message, and for every other error
both appends and shows `getErrorMessage`, which formats
`Checkstyle Error: - '<message>'` from `err.message` when that is a string
and from `err.toString()` otherwise. -/
theorem initCommand_error_policy (err : JsError) :
    initCommand (Except.error CommandError.userCancelled) =
      { outputLines := [], shownErrors := [] } ∧
    initCommand (Except.error (CommandError.other err)) =
      { outputLines := [getErrorMessage err],
        shownErrors := [getErrorMessage err] } ∧
    (∀ m, err.message = some m →
      getErrorMessage err = "Checkstyle Error: - '" ++ m ++ "'") ∧
    (err.message = none →
      getErrorMessage err = "Checkstyle Error: - '" ++ err.toStr ++ "'") := by
  refine ⟨rfl, rfl, ?_, ?_⟩
  · intro m hm
    simp [getErrorMessage, hm]
  · intro hm
    simp [getErrorMessage, hm]

theorem initCommand_error_policy_witness :
    (JsError.mk (some "boom") "Error: boom").message = some "boom" ∧
    initCommand (Except.error CommandError.userCancelled) =
      { outputLines := [], shownErrors := [] } ∧
    getErrorMessage (JsError.mk (some "boom") "Error: boom") =
      "Checkstyle Error: - 'boom'" := by
  refine ⟨rfl, (initCommand_error_policy ⟨some "boom", "Error: boom"⟩).1, ?_⟩
  exact (initCommand_error_policy ⟨some "boom", "Error: boom"⟩).2.2.1 "boom" rfl

/-- C7: `computeConfiguration` answers `null` exactly when the query carries
no `items`; otherwise it answers one entry per item, in request order, with
`null` for every item whose `section` is truthy (regardless of `scopeUri`)
and a settings record for every other item. -/
theorem computeConfiguration_shape (ws : Option String → ConfigStore)
    (params : ConfigurationParams) :
    (computeConfiguration ws params = none ↔ params.items = none) ∧
    (∀ items res, params.items = some items →
      computeConfiguration ws params = some res →
      res.length = items.length ∧
      (∀ (i : Nat) (item : ConfigurationItem), items[i]? = some item →
        (jsTruthyStr item.sectionName = true → res[i]? = some none) ∧
        (jsTruthyStr item.sectionName = false →
          ∃ settings, res[i]? = some (some settings)))) := by
  constructor
  · rcases params with ⟨_ | items⟩ <;> simp [computeConfiguration]
  · intro items res hitems hres
    rcases params with ⟨pitems⟩
    cases hitems
    simp only [computeConfiguration, Option.some.injEq] at hres
    subst hres
    refine ⟨by simp, ?_⟩
    intro i item hi
    have hmap : (items.map (resolveItem ws))[i]? = some (resolveItem ws item) := by
      rw [List.getElem?_map (resolveItem ws) items i, hi]
      rfl
    constructor
    · intro hsec
      rw [hmap]
      simp [resolveItem, hsec]
    · intro hsec
      rw [hmap]
      simp [resolveItem, hsec]

theorem computeConfiguration_shape_witness :
    (ConfigurationParams.mk (some [⟨some "editor", none⟩, ⟨none, some "file:///w"⟩])).items =
      some [⟨some "editor", none⟩, ⟨none, some "file:///w"⟩] ∧
    computeConfiguration (fun _ => ⟨none, none, none, none⟩)
      ⟨some [⟨some "editor", none⟩, ⟨none, some "file:///w"⟩]⟩ =
      some [none, some ⟨false, "8.0", "google_checks", none⟩] ∧
    ([none, some (ICheckStyleSettings.mk false "8.0" "google_checks" none)] :
      List (Option ICheckStyleSettings)).length =
      ([⟨some "editor", none⟩, ⟨none, some "file:///w"⟩] : List ConfigurationItem).length ∧
    ([none, some (ICheckStyleSettings.mk false "8.0" "google_checks" none)] :
      List (Option ICheckStyleSettings))[0]? = some none ∧
    (∃ settings, ([none, some (ICheckStyleSettings.mk false "8.0" "google_checks" none)] :
      List (Option ICheckStyleSettings))[1]? = some (some settings)) := by
  have h := (computeConfiguration_shape (fun _ => ⟨none, none, none, none⟩)
    ⟨some [⟨some "editor", none⟩, ⟨none, some "file:///w"⟩]⟩).2
    [⟨some "editor", none⟩, ⟨none, some "file:///w"⟩]
    [none, some ⟨false, "8.0", "google_checks", none⟩] rfl rfl
  refine ⟨rfl, rfl, h.1, ?_, ?_⟩
  · exact (h.2 0 ⟨some "editor", none⟩ rfl).1 (by decide)
  · exact (h.2 1 ⟨none, some "file:///w"⟩ rfl).2 (by decide)

/-- C8: for a sectionless item `computeConfiguration`'s per-item record is
resolved against the item's `scopeUri` when that is present (and truthy) and
against the workspace-global scope otherwise, and each of `autocheck`,
`version`, `configurationFile` takes its configured value when set and the
defaults `false`, `"8.0"`, `"google_checks"` when unset, while
`propertiesPath` is passed through (possibly null). -/
theorem resolveItem_sectionless (ws : Option String → ConfigStore)
    (item : ConfigurationItem)
    (h : jsTruthyStr item.sectionName = false) :
    (∀ u, item.scopeUri = some u → u ≠ "" →
      resolveItem ws item = some (resolveSettings (ws (some u)))) ∧
    (item.scopeUri = none →
      resolveItem ws item = some (resolveSettings (ws none))) ∧
    (∀ cfg : ConfigStore,
      (cfg.autocheck = none → (resolveSettings cfg).autocheck = false) ∧
      (cfg.version = none → (resolveSettings cfg).version = "8.0") ∧
      (cfg.configurationFile = none →
        (resolveSettings cfg).configurationFile = "google_checks") ∧
      (∀ b, cfg.autocheck = some b → (resolveSettings cfg).autocheck = b) ∧
      (∀ v, cfg.version = some v → (resolveSettings cfg).version = v) ∧
      (∀ f, cfg.configurationFile = some f →
        (resolveSettings cfg).configurationFile = f) ∧
      (resolveSettings cfg).propertiesPath = cfg.propertiesPath) := by
  refine ⟨?_, ?_, ?_⟩
  · intro u hu hne
    simp only [resolveItem, scopeConfig, hu, h]
    simp [jsTruthyStr, hne]
  · intro hu
    simp only [resolveItem, scopeConfig, hu, h]
    simp [jsTruthyStr]
  · intro cfg
    refine ⟨?_, ?_, ?_, ?_, ?_, ?_, rfl⟩
    · intro hx; simp [resolveSettings, hx]
    · intro hx; simp [resolveSettings, hx]
    · intro hx; simp [resolveSettings, hx]
    · intro b hb; simp [resolveSettings, hb]
    · intro v hv; simp [resolveSettings, hv]
    · intro f hf; simp [resolveSettings, hf]

theorem resolveItem_sectionless_witness :
    jsTruthyStr (ConfigurationItem.mk none (some "file:///w")).sectionName = false ∧
    resolveItem (fun s => ⟨none, none, none, s.map (fun u => u ++ "/cs.properties")⟩)
      ⟨none, some "file:///w"⟩ =
      some (resolveSettings ⟨none, none, none, some "file:///w/cs.properties"⟩) ∧
    (resolveSettings (ConfigStore.mk none none none none)).version = "8.0" := by
  refine ⟨rfl, ?_, ?_⟩
  · exact (resolveItem_sectionless
      (fun s => ⟨none, none, none, s.map (fun u => u ++ "/cs.properties")⟩)
      ⟨none, some "file:///w"⟩ rfl).1 "file:///w" rfl (by decide)
  · exact ((resolveItem_sectionless
      (fun s => ⟨none, none, none, s.map (fun u => u ++ "/cs.properties")⟩)
      ⟨none, some "file:///w"⟩ rfl).2.2 ⟨none, none, none, none⟩).2.1 rfl

lemma runTrace_append (fs : FS) (s t : List Ev) :
    runTrace fs (s ++ t) = runTrace (runTrace fs s) t := by
  simp [runTrace, List.foldl_append]

lemma runTrace_map_notif {α : Type} (fs : FS) (g : α → ServerNotification)
    (l : List α) : runTrace fs (l.map (fun a => Ev.notif (g a))) = fs := by
  induction l generalizing fs with
  | nil => rfl
  | cons a t ih => simp [runTrace, applyEv] at ih ⊢; exact ih _

lemma pathExists_removeFile_self (fs : FS) (p : String) :
    (fs.removeFile p).pathExists p = false := by
  simp [FS.removeFile, FS.pathExists]

lemma pathExists_renameFile_dst (fs : FS) (src dst : String) :
    (fs.renameFile src dst).pathExists dst = true := by
  simp [FS.renameFile, FS.pathExists]

lemma pathExists_renameFile_src (fs : FS) (src dst : String) (h : src ≠ dst) :
    (fs.renameFile src dst).pathExists src = false := by
  simp [FS.renameFile, FS.pathExists, h]

lemma getLast?_append_pair {α : Type} (l : List α) (x y : α) :
    (l ++ [x, y]).getLast? = some y := by
  rw [List.getLast?_append_cons]
  rfl

lemma dropLast_getLast?_append_pair {α : Type} (l : List α) (x y : α) :
    (l ++ [x, y]).dropLast.getLast? = some x := by
  rw [List.dropLast_append_cons]
  simp

/-- C3: when the probe is `Found`, replaying the part of the trace before
`DownloadStart` leaves no file at the temp path (a stale temp file is deleted
before streaming begins); and on stream completion the trace ends with the
rename immediately followed by the `finished` status, after which the temp
path holds no file and the final artifact path does. -/
theorem downloadCheckstyle_temp_file (env : DownloadEnv)
    (downloadPath version textDocumentUri : String)
    (hf : requestForVersion env.probeError env.probeResponse = ResponseType.Found) :
    FS.pathExists
      (runTrace ⟨env.fileSet⟩
        ((downloadCheckstyle env downloadPath version textDocumentUri).trace.takeWhile
          (fun e => e ≠ Ev.notif ServerNotification.downloadStart)))
      (tempFilePathOf downloadPath version) = false ∧
    (env.terminal = StreamTerminal.ended →
      (downloadCheckstyle env downloadPath version textDocumentUri).trace.getLast? =
        some (Ev.notif ServerNotification.statusFinished) ∧
      (downloadCheckstyle env downloadPath version
          textDocumentUri).trace.dropLast.getLast? =
        some (Ev.fsRename (tempFilePathOf downloadPath version)
          (finalFilePathOf downloadPath version)) ∧
      FS.pathExists (runTrace ⟨env.fileSet⟩
        (downloadCheckstyle env downloadPath version textDocumentUri).trace)
        (tempFilePathOf downloadPath version) = false ∧
      FS.pathExists (runTrace ⟨env.fileSet⟩
        (downloadCheckstyle env downloadPath version textDocumentUri).trace)
        (finalFilePathOf downloadPath version) = true) := by
  rcases ht : env.terminal with ⟨code, ts⟩ | _
  · constructor
    · by_cases hex : FS.pathExists ⟨env.fileSet⟩ (tempFilePathOf downloadPath version) = true
      · simp [downloadCheckstyle, hf, ht, hex, List.takeWhile, runTrace, applyEv,
          pathExists_removeFile_self]
      · simp only [Bool.not_eq_true] at hex
        simp [downloadCheckstyle, hf, ht, hex, List.takeWhile, runTrace, applyEv]
    · intro hend
      exact absurd hend (by simp)
  · have htr : (downloadCheckstyle env downloadPath version textDocumentUri).trace =
        (if FS.pathExists ⟨env.fileSet⟩ (tempFilePathOf downloadPath version) then
          [Ev.fsRemove (tempFilePathOf downloadPath version)] else []) ++
        [Ev.notif ServerNotification.downloadStart,
         Ev.fsCreate (tempFilePathOf downloadPath version)] ++
        (env.progressPercents.map fun q =>
          Ev.notif (ServerNotification.statusDownloading (jsMathRound (q * 100)))) ++
        [Ev.fsRename (tempFilePathOf downloadPath version)
           (finalFilePathOf downloadPath version),
         Ev.notif ServerNotification.statusFinished] := by
      simp only [downloadCheckstyle, hf, ht]
    constructor
    · by_cases hex : FS.pathExists ⟨env.fileSet⟩ (tempFilePathOf downloadPath version) = true
      · simp [downloadCheckstyle, hf, ht, hex, List.takeWhile, runTrace, applyEv,
          pathExists_removeFile_self]
      · simp only [Bool.not_eq_true] at hex
        simp [downloadCheckstyle, hf, ht, hex, List.takeWhile, runTrace, applyEv]
    · intro _
      refine ⟨?_, ?_, ?_, ?_⟩
      · rw [htr]
        exact getLast?_append_pair _ _ _
      · rw [htr]
        exact dropLast_getLast?_append_pair _ _ _
      · rw [htr, runTrace_append, runTrace_append, runTrace_append,
          runTrace_map_notif]
        simp only [runTrace, List.foldl_cons, List.foldl_nil, applyEv]
        exact pathExists_renameFile_src _ _ _
          (tempFilePathOf_ne_finalFilePathOf downloadPath version)
      · rw [htr, runTrace_append, runTrace_append, runTrace_append,
          runTrace_map_notif]
        simp only [runTrace, List.foldl_cons, List.foldl_nil, applyEv]
        exact pathExists_renameFile_dst _ _ _

theorem downloadCheckstyle_temp_file_witness :
    requestForVersion none (some ⟨302⟩) = ResponseType.Found ∧
    FS.pathExists
      (runTrace ⟨["/res/checkstyle-8.0-all.jar.download"]⟩
        ((downloadCheckstyle
          ⟨none, some ⟨302⟩, ["/res/checkstyle-8.0-all.jar.download"], [],
            StreamTerminal.ended⟩ "/res" "8.0" "file:///A.java").trace.takeWhile
          (fun e => e ≠ Ev.notif ServerNotification.downloadStart)))
      (tempFilePathOf "/res" "8.0") = false ∧
    FS.pathExists
      (runTrace ⟨["/res/checkstyle-8.0-all.jar.download"]⟩
        (downloadCheckstyle
          ⟨none, some ⟨302⟩, ["/res/checkstyle-8.0-all.jar.download"], [],
            StreamTerminal.ended⟩ "/res" "8.0" "file:///A.java").trace)
      (tempFilePathOf "/res" "8.0") = false ∧
    FS.pathExists
      (runTrace ⟨["/res/checkstyle-8.0-all.jar.download"]⟩
        (downloadCheckstyle
          ⟨none, some ⟨302⟩, ["/res/checkstyle-8.0-all.jar.download"], [],
            StreamTerminal.ended⟩ "/res" "8.0" "file:///A.java").trace)
      (finalFilePathOf "/res" "8.0") = true := by
  have h := downloadCheckstyle_temp_file
    ⟨none, some ⟨302⟩, ["/res/checkstyle-8.0-all.jar.download"], [],
      StreamTerminal.ended⟩ "/res" "8.0" "file:///A.java" (by decide)
  exact ⟨by decide, h.1, (h.2 rfl).2.2.1, (h.2 rfl).2.2.2⟩

/-- C4: a stream error during the transfer phase resolves the call to `false`
and makes the last notification the terminal `error` status, whose payload
carries the computed download link and the `DownloadCheckstyleError` message
built from the transport error code when one is present (non-empty) and from
the raw error's string form otherwise. -/
theorem downloadCheckstyle_stream_error (env : DownloadEnv)
    (downloadPath version textDocumentUri : String)
    (code : Option String) (ts : String)
    (hf : requestForVersion env.probeError env.probeResponse = ResponseType.Found)
    (ht : env.terminal = StreamTerminal.streamError code ts) :
    (downloadCheckstyle env downloadPath version textDocumentUri).result = false ∧
    (downloadNotifs env downloadPath version textDocumentUri).getLast? =
      some (ServerNotification.statusError
        ("Download Checkstyle fail: " ++ jsOrString code ts)
        (downloadLinkOf version)) ∧
    (∀ c, code = some c → c ≠ "" → jsOrString code ts = c) ∧
    (code = none → jsOrString code ts = ts) := by
  have htr : (downloadCheckstyle env downloadPath version textDocumentUri).trace =
      ((if FS.pathExists ⟨env.fileSet⟩ (tempFilePathOf downloadPath version) then
        [Ev.fsRemove (tempFilePathOf downloadPath version)] else []) ++
      [Ev.notif ServerNotification.downloadStart,
       Ev.fsCreate (tempFilePathOf downloadPath version)] ++
      (env.progressPercents.map fun q =>
        Ev.notif (ServerNotification.statusDownloading (jsMathRound (q * 100))))) ++
      [Ev.notif (ServerNotification.statusError
        ("Download Checkstyle fail: " ++ jsOrString code ts)
        (downloadLinkOf version))] := by
    simp only [downloadCheckstyle, hf, ht]
  refine ⟨by simp [downloadCheckstyle, hf, ht], ?_, ?_, ?_⟩
  · rw [downloadNotifs, htr, notifsOf_append]
    have hone : notifsOf [Ev.notif (ServerNotification.statusError
        ("Download Checkstyle fail: " ++ jsOrString code ts)
        (downloadLinkOf version))] =
        [ServerNotification.statusError
          ("Download Checkstyle fail: " ++ jsOrString code ts)
          (downloadLinkOf version)] := rfl
    rw [hone]
    exact List.getLast?_concat _
  · intro c hc hne
    simp [jsOrString, hc, hne]
  · intro hc
    simp [jsOrString, hc]

theorem downloadCheckstyle_stream_error_witness :
    requestForVersion none (some ⟨302⟩) = ResponseType.Found ∧
    (downloadCheckstyle
      ⟨none, some ⟨302⟩, [], [], StreamTerminal.streamError (some "ETIMEDOUT") "Error: timeout"⟩
      "/res" "8.0" "file:///A.java").result = false ∧
    (downloadNotifs
      ⟨none, some ⟨302⟩, [], [], StreamTerminal.streamError (some "ETIMEDOUT") "Error: timeout"⟩
      "/res" "8.0" "file:///A.java").getLast? =
      some (ServerNotification.statusError
        ("Download Checkstyle fail: " ++ jsOrString (some "ETIMEDOUT") "Error: timeout")
        (downloadLinkOf "8.0")) ∧
    jsOrString (some "ETIMEDOUT") "Error: timeout" = "ETIMEDOUT" := by
  have h := downloadCheckstyle_stream_error
    ⟨none, some ⟨302⟩, [], [], StreamTerminal.streamError (some "ETIMEDOUT") "Error: timeout"⟩
    "/res" "8.0" "file:///A.java" (some "ETIMEDOUT") "Error: timeout" (by decide) rfl
  exact ⟨by decide, h.1, h.2.1, h.2.2.1 "ETIMEDOUT" rfl (by decide)⟩

/-- C10: the call always settles with a boolean (the embedding is a total
function and the promise's reject continuation is never used): every
non-`Found` probe settles it with `false`, every stream error settles it with
`false`, and it settles with `true` exactly when the probe was `Found` and
the stream ended normally. -/
theorem downloadCheckstyle_never_rejects (env : DownloadEnv)
    (downloadPath version textDocumentUri : String) :
    (requestForVersion env.probeError env.probeResponse ≠ ResponseType.Found →
      (downloadCheckstyle env downloadPath version textDocumentUri).result = false) ∧
    (∀ code ts, env.terminal = StreamTerminal.streamError code ts →
      (downloadCheckstyle env downloadPath version textDocumentUri).result = false) ∧
    ((downloadCheckstyle env downloadPath version textDocumentUri).result = true ↔
      requestForVersion env.probeError env.probeResponse = ResponseType.Found ∧
      env.terminal = StreamTerminal.ended) := by
  rcases hr : requestForVersion env.probeError env.probeResponse with _ | _ | _ <;>
    rcases ht : env.terminal with ⟨code, ts⟩ | _ <;>
    simp [downloadCheckstyle, hr, ht]

theorem downloadCheckstyle_never_rejects_witness :
    requestForVersion (some "ETIMEDOUT") none ≠ ResponseType.Found ∧
    (downloadCheckstyle ⟨some "ETIMEDOUT", none, [], [], StreamTerminal.ended⟩
      "/res" "8.0" "file:///A.java").result = false := by
  refine ⟨by decide, ?_⟩
  exact (downloadCheckstyle_never_rejects
    ⟨some "ETIMEDOUT", none, [], [], StreamTerminal.ended⟩
    "/res" "8.0" "file:///A.java").1 (by decide)

lemma foldl_registerClientListenerStep (events : List ClientEvent) :
    ∀ s : ControllerState,
      (events.foldl registerClientListenerStep s).tasksStarted =
        s.tasksStarted + countStarts events ∧
      (events.foldl registerClientListenerStep s).statusHandlerTask =
        (if countStarts events = 0 then s.statusHandlerTask
         else some (s.tasksStarted + countStarts events - 1)) := by
  induction events with
  | nil => intro s; simp [countStarts]
  | cons e t ih =>
      intro s
      cases e with
      | downloadStart =>
          have h := ih (registerClientListenerStep s ClientEvent.downloadStart)
          have e1 : (registerClientListenerStep s ClientEvent.downloadStart).tasksStarted =
              s.tasksStarted + 1 := rfl
          have e2 : (registerClientListenerStep s
              ClientEvent.downloadStart).statusHandlerTask = some s.tasksStarted := rfl
          have hc : countStarts (ClientEvent.downloadStart :: t) = countStarts t + 1 := by
            simp [countStarts, List.countP_cons]
          rw [List.foldl_cons]
          refine ⟨?_, ?_⟩
          · rw [h.1, e1, hc]
            omega
          · rw [h.2, e1, e2, hc]
            rcases Nat.eq_zero_or_pos (countStarts t) with h0 | h0
            · simp [h0]
            · rw [if_neg (by omega), if_neg (by omega)]
              congr 1
              omega
      | downloadStatus kind =>
          have h := ih s
          have hc : countStarts (ClientEvent.downloadStatus kind :: t) = countStarts t := by
            simp [countStarts, List.countP_cons]
          rw [List.foldl_cons]
          rw [show registerClientListenerStep s (ClientEvent.downloadStatus kind) = s
            from rfl, hc]
          exact h

/-- C6 (amended): receiving a `DownloadStatus` notification — terminal or not
— never changes which handler is registered; the `DownloadStatus` handler
registered inside one task's `DownloadStart` callback stays registered until
the next `DownloadStart` replaces it with the next task's handler, so after
any event sequence the registered handler is the one of the latest started
task (and none before the first task). -/
theorem registerClientListener_handler_replaced_only_on_start
    (events : List ClientEvent) :
    (runController events).tasksStarted = countStarts events ∧
    (runController events).statusHandlerTask =
      (if countStarts events = 0 then none
       else some (countStarts events - 1)) ∧
    (∀ (s : ControllerState) (kind : DownloadStatusKind),
      registerClientListenerStep s (ClientEvent.downloadStatus kind) = s) := by
  have h := foldl_registerClientListenerStep events ⟨none, 0⟩
  refine ⟨?_, ?_, fun s kind => rfl⟩
  · simpa [runController] using h.1
  · simpa [runController] using h.2

/-- C6 (counterexample): after `DownloadStart` followed by the terminal
`finished` status, the `DownloadStatus` handler registered for task 0 is
still attached — the controller does not detach its listener upon receiving
a terminal status. -/
theorem registerClientListener_no_detach_on_terminal :
    (runController [ClientEvent.downloadStart,
      ClientEvent.downloadStatus DownloadStatusKind.finished]).statusHandlerTask =
      some 0 ∧
    (runController [ClientEvent.downloadStart,
      ClientEvent.downloadStatus DownloadStatusKind.finished]).statusHandlerTask ≠
      none := by
  exact ⟨rfl, by decide⟩

lemma jsMathRound_mono {a b : ℚ} (h : a ≤ b) : jsMathRound a ≤ jsMathRound b :=
  Int.floor_le_floor (by linarith)

lemma jsMathRound_percent_bounds {q : ℚ} (h0 : 0 ≤ q) (h1 : q ≤ 1) :
    0 ≤ jsMathRound (q * 100) ∧ jsMathRound (q * 100) ≤ 100 := by
  constructor
  · apply Int.le_floor.mpr
    push_cast
    linarith
  · have hlt : jsMathRound (q * 100) < 101 := by
      apply Int.floor_lt.mpr
      push_cast
      linarith
    omega

lemma terminal_finished_error_split (t : ServerNotification)
    (h : isTerminalN t = true) :
    (if isFinishedN t = true then (1 : ℕ) else 0) +
      (if isErrorN t = true then 1 else 0) = 1 := by
  cases t <;> simp [isTerminalN, isFinishedN, isErrorN] at h ⊢

lemma notifsOf_map_notif {α : Type} (g : α → ServerNotification) (l : List α) :
    notifsOf (l.map fun a => Ev.notif (g a)) = l.map g := by
  rw [notifsOf, List.filterMap_map]
  exact List.filterMap_eq_map_iff_forall_eq_some.mpr (fun x _ => rfl)

lemma downloadSequence_shape (ps : List ℚ) (t : ServerNotification)
    (hstart : isDownloadStartN t = false)
    (hterm : isTerminalN t = true)
    (hpct : percentOfN t = none)
    (hmono : ps.Chain' (· ≤ ·))
    (hbound : ∀ q ∈ ps, 0 ≤ q ∧ q ≤ 1) :
    DownloadSequenceOk
      (ServerNotification.downloadStart ::
        (ps.map (fun q => ServerNotification.statusDownloading (jsMathRound (q * 100))) ++
          [t])) ps := by
  have hmap0 : ∀ p : ServerNotification → Bool,
      (∀ q : ℚ, p (ServerNotification.statusDownloading (jsMathRound (q * 100))) = false) →
      (ps.map (fun q =>
        ServerNotification.statusDownloading (jsMathRound (q * 100)))).countP p = 0 := by
    intro p hp
    rw [List.countP_eq_zero]
    intro a ha
    rcases List.mem_map.mp ha with ⟨q, _, rfl⟩
    simp [hp q]
  have hcount : ∀ p : ServerNotification → Bool,
      (∀ q : ℚ, p (ServerNotification.statusDownloading (jsMathRound (q * 100))) = false) →
      (ServerNotification.downloadStart ::
        (ps.map (fun q =>
          ServerNotification.statusDownloading (jsMathRound (q * 100))) ++ [t])).countP p =
        (if p ServerNotification.downloadStart = true then 1 else 0) +
          (if p t = true then 1 else 0) := by
    intro p hp
    rw [List.countP_cons, List.countP_append, hmap0 p hp, List.countP_cons,
      List.countP_nil]
    cases hpd : p ServerNotification.downloadStart <;> cases hpt : p t <;> simp
  have h7 : (ServerNotification.downloadStart ::
      (ps.map (fun q =>
        ServerNotification.statusDownloading (jsMathRound (q * 100))) ++
        [t])).filterMap percentOfN = ps.map (fun q => jsMathRound (q * 100)) := by
    rw [List.filterMap_cons_none rfl, List.filterMap_append,
      List.filterMap_cons_none hpct, List.filterMap_nil, List.append_nil,
      List.filterMap_map]
    exact List.filterMap_eq_map_iff_forall_eq_some.mpr (fun x _ => rfl)
  refine ⟨?_, rfl, ?_, ?_, ?_, ?_, h7, ?_, ?_⟩
  · rw [hcount _ (fun q => rfl)]
    have h1 : isDownloadStartN ServerNotification.downloadStart = true := rfl
    simp [h1, hstart]
  · rw [hcount _ (fun q => rfl)]
    have h1 : isTerminalN ServerNotification.downloadStart = false := rfl
    simp [h1, hterm]
  · rw [hcount _ (fun q => rfl), hcount _ (fun q => rfl)]
    have hx := terminal_finished_error_split t hterm
    have hfd : isFinishedN ServerNotification.downloadStart = false := rfl
    have hed : isErrorN ServerNotification.downloadStart = false := rfl
    cases hft : isFinishedN t <;> cases het : isErrorN t <;>
      simp [hfd, hed, hft, het] at hx ⊢
  · refine ⟨t, ?_, hterm⟩
    rw [show ServerNotification.downloadStart ::
      (ps.map (fun q =>
        ServerNotification.statusDownloading (jsMathRound (q * 100))) ++ [t]) =
      (ServerNotification.downloadStart ::
        ps.map (fun q =>
          ServerNotification.statusDownloading (jsMathRound (q * 100)))) ++ [t]
      from rfl]
    exact List.getLast?_concat _
  · rw [show ServerNotification.downloadStart ::
      (ps.map (fun q =>
        ServerNotification.statusDownloading (jsMathRound (q * 100))) ++ [t]) =
      (ServerNotification.downloadStart ::
        ps.map (fun q =>
          ServerNotification.statusDownloading (jsMathRound (q * 100)))) ++ [t]
      from rfl]
    rw [List.dropLast_concat, List.tail_cons]
    intro n hn
    rcases List.mem_map.mp hn with ⟨q, _, rfl⟩
    rfl
  · rw [h7, List.chain'_map]
    exact hmono.imp (fun a b hab => jsMathRound_mono
      (mul_le_mul_of_nonneg_right hab (by norm_num)))
  · rw [h7]
    intro p hp
    rcases List.mem_map.mp hp with ⟨q, hq, rfl⟩
    exact jsMathRound_percent_bounds (hbound q hq).1 (hbound q hq).2

/-- C5: when the probe is `Found`, the notifications of one download task are
exactly one `DownloadStart` first, then one `downloading` status per progress
event carrying `Math.round(percent * 100)` — integers that are non-decreasing
and within `[0, 100]` whenever the stream's progress fractions are
non-decreasing within `[0, 1]` — and exactly one terminal status
(`finished` xor `error`) last. -/
theorem downloadCheckstyle_notification_sequence (env : DownloadEnv)
    (downloadPath version textDocumentUri : String)
    (hf : requestForVersion env.probeError env.probeResponse = ResponseType.Found)
    (hmono : env.progressPercents.Chain' (· ≤ ·))
    (hbound : ∀ q ∈ env.progressPercents, 0 ≤ q ∧ q ≤ 1) :
    DownloadSequenceOk (downloadNotifs env downloadPath version textDocumentUri)
      env.progressPercents := by
  have hcl : notifsOf
      (if FS.pathExists ⟨env.fileSet⟩ (tempFilePathOf downloadPath version) then
        [Ev.fsRemove (tempFilePathOf downloadPath version)] else []) = [] := by
    split <;> rfl
  rcases ht : env.terminal with ⟨code, ts⟩ | _
  · have htr : (downloadCheckstyle env downloadPath version textDocumentUri).trace =
        (if FS.pathExists ⟨env.fileSet⟩ (tempFilePathOf downloadPath version) then
          [Ev.fsRemove (tempFilePathOf downloadPath version)] else []) ++
        [Ev.notif ServerNotification.downloadStart,
         Ev.fsCreate (tempFilePathOf downloadPath version)] ++
        (env.progressPercents.map fun q =>
          Ev.notif (ServerNotification.statusDownloading (jsMathRound (q * 100)))) ++
        [Ev.notif (ServerNotification.statusError
          ("Download Checkstyle fail: " ++ jsOrString code ts)
          (downloadLinkOf version))] := by
      simp only [downloadCheckstyle, hf, ht]
    have hns : downloadNotifs env downloadPath version textDocumentUri =
        ServerNotification.downloadStart ::
          (env.progressPercents.map (fun q =>
            ServerNotification.statusDownloading (jsMathRound (q * 100))) ++
           [ServerNotification.statusError
             ("Download Checkstyle fail: " ++ jsOrString code ts)
             (downloadLinkOf version)]) := by
      rw [downloadNotifs, htr, notifsOf_append, notifsOf_append, notifsOf_append,
        hcl, notifsOf_map_notif]
      rfl
    rw [hns]
    exact downloadSequence_shape _ _ rfl rfl rfl hmono hbound
  · have htr : (downloadCheckstyle env downloadPath version textDocumentUri).trace =
        (if FS.pathExists ⟨env.fileSet⟩ (tempFilePathOf downloadPath version) then
          [Ev.fsRemove (tempFilePathOf downloadPath version)] else []) ++
        [Ev.notif ServerNotification.downloadStart,
         Ev.fsCreate (tempFilePathOf downloadPath version)] ++
        (env.progressPercents.map fun q =>
          Ev.notif (ServerNotification.statusDownloading (jsMathRound (q * 100)))) ++
        [Ev.fsRename (tempFilePathOf downloadPath version)
           (finalFilePathOf downloadPath version),
         Ev.notif ServerNotification.statusFinished] := by
      simp only [downloadCheckstyle, hf, ht]
    have hns : downloadNotifs env downloadPath version textDocumentUri =
        ServerNotification.downloadStart ::
          (env.progressPercents.map (fun q =>
            ServerNotification.statusDownloading (jsMathRound (q * 100))) ++
           [ServerNotification.statusFinished]) := by
      rw [downloadNotifs, htr, notifsOf_append, notifsOf_append, notifsOf_append,
        hcl, notifsOf_map_notif]
      rfl
    rw [hns]
    exact downloadSequence_shape _ _ rfl rfl rfl hmono hbound

theorem downloadCheckstyle_notification_sequence_witness :
    requestForVersion none (some ⟨302⟩) = ResponseType.Found ∧
    List.Chain' (· ≤ ·) [(0 : ℚ), 1] ∧
    (∀ q ∈ [(0 : ℚ), 1], 0 ≤ q ∧ q ≤ 1) ∧
    DownloadSequenceOk
      (downloadNotifs ⟨none, some ⟨302⟩, [], [(0 : ℚ), 1], StreamTerminal.ended⟩
        "/res" "8.0" "file:///A.java")
      [(0 : ℚ), 1] := by
  refine ⟨by decide, by simp, by simp, ?_⟩
  exact downloadCheckstyle_notification_sequence
    ⟨none, some ⟨302⟩, [], [(0 : ℚ), 1], StreamTerminal.ended⟩
    "/res" "8.0" "file:///A.java" (by decide) (by simp) (by simp)
